import Mathlib

/-!
Verification of the miser proxy (Go) against its specification.

The Go source is shallowly embedded:
* `float64` money amounts are modelled by exact rationals (`ℚ`);
* Go `int` token counters are modelled by `Int`;
* HTTP status codes are modelled by `Nat`;
* `json.Unmarshal` (Go standard library, external to the repository) is
  modelled by oracle parameters of type `String → Option _`: `none` models a
  decode failure, `some v` a successful decode producing `v`;
* wall-clock values (`time.Now`, latencies) are passed as parameters or
  omitted, since the claims under verification do not constrain them;
* Go maps used by value (`pricingStore.models`, `aliases`, `byModel`) are
  modelled as association lists; the list order stands for the (unspecified)
  Go map iteration order where iteration order is observable.
-/

/-! ### String helpers (models of Go `strings.HasPrefix` / `strings.TrimPrefix`) -/

/-- Model of Go `strings.HasPrefix s p`. -/
def hasPrefixStr (s p : String) : Bool :=
  p.data.isPrefixOf s.data

/-- Model of Go `strings.TrimPrefix s p`: drops `p` from the front of `s`
when present, otherwise returns `s` unchanged. -/
def trimPrefixStr (s p : String) : String :=
  if p.data.isPrefixOf s.data then ⟨s.data.drop p.data.length⟩ else s

/-! ### Pricing resolver (`internal/tracker`, `pricing.go`) -/

/-- `tracker.Pricing`: four per-million-token prices. -/
structure Pricing where
  inputPerMTok : ℚ
  outputPerMTok : ℚ
  cacheReadPerMTok : ℚ
  cacheWritePerMTok : ℚ
deriving DecidableEq

/-- The runtime pricing state (`pricingStore`): canonical table, alias table,
fallback entry.  The association lists model the Go maps; the alias list order
models the map iteration order of the prefix-scan loop. -/
structure PricingStore where
  models : List (String × Pricing)
  aliases : List (String × String)
  fallback : Pricing

/-- Association-list lookup, the model of `m[k]` on a Go map. -/
def lookupExact {α : Type} (l : List (String × α)) (k : String) : Option α :=
  (l.find? (fun p => p.1 == k)).map (·.2)

/-- Step 2 of `GetPricing`: exact alias hit resolved through the canonical
table (`aliases[model]` then `models[resolved]`). -/
def aliasExactStep (st : PricingStore) (model : String) : Option Pricing :=
  (lookupExact st.aliases model).bind (fun full => lookupExact st.models full)

/-- Step 3 of `GetPricing`: the `for prefix, full := range aliases` loop —
return the canonical entry of the first alias (in iteration order) that is a
prefix of `model` and whose canonical name is present in the table. -/
def aliasScanStep (st : PricingStore) (model : String) : Option Pricing :=
  (st.aliases.find? (fun pr =>
      hasPrefixStr model pr.1 && (lookupExact st.models pr.2).isSome)).bind
    (fun pr => lookupExact st.models pr.2)

/-- `tracker.GetPricing`: exact canonical match, else exact alias match, else
alias-prefix scan, else the fallback entry. -/
def GetPricing (st : PricingStore) (model : String) : Pricing :=
  match lookupExact st.models model with
  | some p => p
  | none =>
    match aliasExactStep st model with
    | some p => p
    | none =>
      match aliasScanStep st model with
      | some p => p
      | none => st.fallback

/-- `tracker.CalculateCost`: Σ tokens × per-MTok price / 1_000_000 over the
four categories, at the pricing entry resolved for `model`. -/
def CalculateCost (st : PricingStore) (model : String)
    (inputTokens outputTokens cacheRead cacheWrite : Int) : ℚ :=
  let p := GetPricing st model
  (inputTokens : ℚ) * p.inputPerMTok / 1000000
    + (outputTokens : ℚ) * p.outputPerMTok / 1000000
    + (cacheRead : ℚ) * p.cacheReadPerMTok / 1000000
    + (cacheWrite : ℚ) * p.cacheWritePerMTok / 1000000

/-- The built-in pricing tables (`pricingStore`'s initial value). -/
def defaultPricingStore : PricingStore where
  models :=
    [ ("claude-sonnet-4-20250514", ⟨3.00, 15.00, 0.30, 3.75⟩)
    , ("claude-opus-4-20250514", ⟨15.00, 75.00, 1.50, 18.75⟩)
    , ("claude-3-7-sonnet-20250219", ⟨3.00, 15.00, 0.30, 3.75⟩)
    , ("claude-3-5-sonnet-20241022", ⟨3.00, 15.00, 0.30, 3.75⟩)
    , ("claude-3-5-haiku-20241022", ⟨0.80, 4.00, 0.08, 1.00⟩)
    , ("claude-3-opus-20240229", ⟨15.00, 75.00, 1.50, 18.75⟩) ]
  aliases :=
    [ ("claude-sonnet-4", "claude-sonnet-4-20250514")
    , ("claude-opus-4", "claude-opus-4-20250514")
    , ("claude-3-7-sonnet", "claude-3-7-sonnet-20250219")
    , ("claude-3-5-sonnet", "claude-3-5-sonnet-20241022")
    , ("claude-3-5-haiku", "claude-3-5-haiku-20241022")
    , ("claude-3-opus", "claude-3-opus-20240229") ]
  fallback := ⟨3.00, 15.00, 0.30, 3.75⟩

/-! ### Usage ledger (`internal/tracker/tracker.go`) -/

/-- `tracker.Request`: one ledger record.  `Timestamp` and `Latency`
(wall-clock values) are not modelled; no claim under verification constrains
them. -/
structure Request where
  id : Nat
  model : String
  inputTokens : Int
  outputTokens : Int
  cacheRead : Int
  cacheWrite : Int
  cost : ℚ
  statusCode : Nat
  error : String
deriving DecidableEq

/-- `tracker.ModelStats`: per-model aggregate. -/
structure ModelStats where
  model : String
  requests : Nat
  inputTokens : Int
  outputTokens : Int
  cacheRead : Int
  cacheWrite : Int
  totalCost : ℚ
deriving DecidableEq

/-- `tracker.Summary`: global aggregate. -/
structure Summary where
  totalCost : ℚ
  totalRequests : Nat
  totalInput : Int
  totalOutput : Int
  totalCacheR : Int
  totalCacheW : Int
deriving DecidableEq

/-- The mutable part of `tracker.Tracker`: the record slice and the id
counter.  The `OnRecord` callback mutates no tracker state and is omitted. -/
structure TrackerState where
  requests : List Request
  nextID : Nat
deriving DecidableEq

/-- The two mutating ledger operations. -/
inductive TrackerOp where
  | record (r : Request)
  | clear

/-- One mutating call: `Record` increments `nextID`, stamps it on the record
and appends; `Clear` empties the slice and resets `nextID` to 0. -/
def trackerStep (st : TrackerState) : TrackerOp → TrackerState
  | .record r => ⟨st.requests ++ [{ r with id := st.nextID + 1 }], st.nextID + 1⟩
  | .clear => ⟨[], 0⟩

/-- Run a sequence of mutating calls against a fresh `tracker.New()`. -/
def runTracker (ops : List TrackerOp) : TrackerState :=
  ops.foldl trackerStep ⟨[], 0⟩

/-- The fold body of `tracker.GetSummary` (one loop iteration). -/
def summaryStep (s : Summary) (r : Request) : Summary :=
  ⟨s.totalCost + r.cost, s.totalRequests, s.totalInput + r.inputTokens,
    s.totalOutput + r.outputTokens, s.totalCacheR + r.cacheRead,
    s.totalCacheW + r.cacheWrite⟩

/-- `tracker.GetSummary`: `TotalRequests = len(requests)`, the other fields
accumulated over the records. -/
def GetSummary (requests : List Request) : Summary :=
  requests.foldl summaryStep ⟨0, requests.length, 0, 0, 0, 0⟩

/-- A fresh per-model accumulator (`&ModelStats{Model: r.Model}`). -/
def emptyStats (m : String) : ModelStats := ⟨m, 0, 0, 0, 0, 0, 0⟩

/-- The per-record accumulation of `GetModelStats`'s loop body. -/
def addReq (s : ModelStats) (r : Request) : ModelStats :=
  ⟨s.model, s.requests + 1, s.inputTokens + r.inputTokens,
    s.outputTokens + r.outputTokens, s.cacheRead + r.cacheRead,
    s.cacheWrite + r.cacheWrite, s.totalCost + r.cost⟩

/-- Update of the `byModel` map for one record: find (or create) the entry
keyed by `r.Model` and accumulate `r` into it. -/
def updateStats (r : Request) : List (String × ModelStats) → List (String × ModelStats)
  | [] => [(r.model, addReq (emptyStats r.model) r)]
  | (k, s) :: rest =>
    if k = r.model then (k, addReq s r) :: rest
    else (k, s) :: updateStats r rest

/-- The `byModel` map of `GetModelStats` after the accumulation loop. -/
def byModel (requests : List Request) : List (String × ModelStats) :=
  requests.foldl (fun acc r => updateStats r acc) []

/-- `tracker.GetModelStats`: accumulate per model, collect the values, sort by
descending total cost (`sort.Slice` with `TotalCost i > TotalCost j`; only the
resulting multiset is relied on, so a merge sort with the matching comparator
stands in for Go's unstable sort). -/
def GetModelStats (requests : List Request) : List ModelStats :=
  ((byModel requests).map Prod.snd).mergeSort
    (fun a b => decide (b.totalCost ≤ a.totalCost))

/-! ### Protocol translator (`internal/proxy/openai.go`) -/

/-- One element of `anthropicResponse.Content`. -/
structure ContentBlock where
  type : String
  text : String
deriving DecidableEq

/-- `anthropicResponse.Usage`. -/
structure AntUsage where
  inputTokens : Int
  outputTokens : Int
  cacheCreationInputTokens : Int
  cacheReadInputTokens : Int
deriving DecidableEq

/-- `anthropicResponse`: the native (upstream) non-streaming response shape. -/
structure AnthropicResponse where
  id : String
  type : String
  role : String
  model : String
  content : List ContentBlock
  stopReason : String
  usage : AntUsage
deriving DecidableEq

/-- `oaiMessage` as constructed on the response path (string content). -/
structure OaiMessage where
  role : String
  content : String
deriving DecidableEq

/-- `oaiUsage`. -/
structure OaiUsage where
  promptTokens : Int
  completionTokens : Int
  totalTokens : Int
deriving DecidableEq

/-- `oaiChoice`. -/
structure OaiChoice where
  index : Nat
  message : Option OaiMessage
  delta : Option OaiMessage
  finishReason : Option String
deriving DecidableEq

/-- `oaiResponse`. -/
structure OaiResponse where
  id : String
  object : String
  created : Int
  model : String
  choices : List OaiChoice
  usage : Option OaiUsage
deriving DecidableEq

/-- `mapStopReason`: `end_turn`/`stop_sequence` → `stop`, `max_tokens` →
`length`, anything else → `stop`. -/
def mapStopReason (antReason : String) : String :=
  if antReason = "end_turn" then "stop"
  else if antReason = "stop_sequence" then "stop"
  else if antReason = "max_tokens" then "length"
  else "stop"

/-- The `strings.Builder` loop of `convertResponse`: concatenate the text of
the content blocks whose type is `"text"`, in order. -/
def textConcat (content : List ContentBlock) : String :=
  content.foldl (fun acc c => if c.type = "text" then acc ++ c.text else acc) ""

/-- `convertResponse`: native response → OpenAI chat-completion response.
`now` models `time.Now().Unix()`. -/
def convertResponse (ant : AnthropicResponse) (now : Int) : OaiResponse where
  id := "chatcmpl-" ++ ant.id
  object := "chat.completion"
  created := now
  model := ant.model
  choices :=
    [⟨0, some ⟨"assistant", textConcat ant.content⟩, none,
      some (mapStopReason ant.stopReason)⟩]
  usage :=
    some ⟨ant.usage.inputTokens, ant.usage.outputTokens,
      ant.usage.inputTokens + ant.usage.outputTokens⟩

/-! ### Request handlers (`internal/proxy/proxy.go`, `internal/proxy/openai.go`) -/

/-- A client response body: either raw bytes forwarded from upstream or an
encoded OpenAI response object. -/
inductive RespBody where
  | raw (s : String)
  | oaiJson (r : OaiResponse)
deriving DecidableEq

/-- `Server.recordError`: the record passed to `Tracker.Record` on a terminal
error — only `Model` and `Error` are set, every other field is the Go zero
value (`Record` assigns the id later). -/
def recordErrorRequest (model errMsg : String) : Request :=
  ⟨0, model, 0, 0, 0, 0, 0, 0, errMsg⟩

/-- The record built by `handleOAINonStreaming` from a decoded native
response. -/
def oaiUsageRecord (st : PricingStore) (model : String) (ant : AnthropicResponse)
    (status : Nat) : Request :=
  ⟨0, model, ant.usage.inputTokens, ant.usage.outputTokens,
    ant.usage.cacheReadInputTokens, ant.usage.cacheCreationInputTokens,
    CalculateCost st model ant.usage.inputTokens ant.usage.outputTokens
      ant.usage.cacheReadInputTokens ant.usage.cacheCreationInputTokens,
    status, ""⟩

/-- The record built by `handleNonStreaming` (native path) from the usage
fields decoded out of the upstream body. -/
def nativeUsageRecord (st : PricingStore) (model : String) (u : AntUsage)
    (status : Nat) : Request :=
  ⟨0, model, u.inputTokens, u.outputTokens, u.cacheReadInputTokens,
    u.cacheCreationInputTokens,
    CalculateCost st model u.inputTokens u.outputTokens u.cacheReadInputTokens
      u.cacheCreationInputTokens,
    status, ""⟩

/-- Usage counters captured on the side while streaming. -/
structure StreamCounters where
  inputTokens : Int
  outputTokens : Int
  cacheRead : Int
  cacheWrite : Int
deriving DecidableEq

/-- The record built at end-of-stream by both streaming handlers. -/
def streamUsageRecord (st : PricingStore) (model : String) (c : StreamCounters)
    (status : Nat) : Request :=
  ⟨0, model, c.inputTokens, c.outputTokens, c.cacheRead, c.cacheWrite,
    CalculateCost st model c.inputTokens c.outputTokens c.cacheRead c.cacheWrite,
    status, ""⟩

/-- `handleOAINonStreaming`.  `bodyRead` is the outcome of
`io.ReadAll(resp.Body)` (`none` = read failure, with Go error text `errMsg`);
`parse` is the `json.Unmarshal` oracle for `anthropicResponse`.  Returns
client status, client body, and the list of `Record` calls made. -/
def handleOAINonStreaming (st : PricingStore) (model : String) (status : Nat)
    (bodyRead : Option String) (errMsg : String)
    (parse : String → Option AnthropicResponse) (now : Int) :
    Nat × RespBody × List Request :=
  match bodyRead with
  | none =>
    (502, .raw "\x7b\"error\":\x7b\"message\":\"failed to read upstream response\"\x7d\x7d",
      [recordErrorRequest model errMsg])
  | some body =>
    match parse body with
    | none => (status, .raw body, [])
    | some ant =>
      (200, .oaiJson (convertResponse ant now), [oaiUsageRecord st model ant status])

/-- `handleNonStreaming` (native path).  The upstream body is forwarded with
the upstream status in every non-error case; a record is made only when the
body decodes as JSON (`parseUsage` oracle for the anonymous usage struct). -/
def handleNonStreaming (st : PricingStore) (model : String) (status : Nat)
    (bodyRead : Option String) (errMsg : String)
    (parseUsage : String → Option AntUsage) :
    Nat × RespBody × List Request :=
  match bodyRead with
  | none => (502, .raw "failed to read upstream response", [recordErrorRequest model errMsg])
  | some body =>
    match parseUsage body with
    | none => (status, .raw body, [])
    | some u => (status, .raw body, [nativeUsageRecord st model u status])

/-- The `message.usage` sub-object decoded from an SSE `message_start` frame. -/
structure StreamMsgUsage where
  inputTokens : Int
  cacheCreationInputTokens : Int
  cacheReadInputTokens : Int
deriving DecidableEq

/-- The SSE event shape decoded by the native passthrough (`handleStreaming`):
`type`, `message.usage`, and top-level `usage.output_tokens`. -/
structure NativeStreamEvent where
  type : String
  messageUsage : StreamMsgUsage
  usageOutputTokens : Int
deriving DecidableEq

/-- The SSE event shape decoded by the translated stream
(`handleOAIStreaming`): additionally `message.id` and the `delta` fields. -/
structure OaiStreamEvent where
  type : String
  messageID : String
  messageUsage : StreamMsgUsage
  deltaType : String
  deltaText : String
  deltaStopReason : String
  usageOutputTokens : Int
deriving DecidableEq

/-- One loop iteration of `handleStreaming`'s side-channel extraction: a
`data: ` frame that decodes (oracle `parseEvent`) updates the counters on
`message_start` / `message_delta`; everything else leaves them unchanged. -/
def nativeStreamStep (parseEvent : String → Option NativeStreamEvent)
    (c : StreamCounters) (line : String) : StreamCounters :=
  if hasPrefixStr line "data: " then
    let data : String := ⟨line.data.drop 6⟩
    if data = "[DONE]" then c
    else
      match parseEvent data with
      | none => c
      | some e =>
        if e.type = "message_start" then
          { c with inputTokens := e.messageUsage.inputTokens,
                   cacheRead := e.messageUsage.cacheReadInputTokens,
                   cacheWrite := e.messageUsage.cacheCreationInputTokens }
        else if e.type = "message_delta" then
          { c with outputTokens := e.usageOutputTokens }
        else c
  else c

/-- `handleStreaming` (native passthrough): forward every line plus `"\n"`,
extract usage on the side, then make exactly one `Record` call. -/
def handleStreaming (st : PricingStore) (model : String) (status : Nat)
    (lines : List String) (parseEvent : String → Option NativeStreamEvent) :
    Nat × List String × List Request :=
  let c := lines.foldl (nativeStreamStep parseEvent) ⟨0, 0, 0, 0⟩
  (status, lines.map (fun l => l ++ "\n"), [streamUsageRecord st model c status])

/-- One emitted element of the translated SSE output: a chunk object or the
`data: [DONE]` terminator. -/
inductive StreamOut where
  | chunk (r : OaiResponse)
  | done
deriving DecidableEq

/-- `writeOAIChunk`: a `chat.completion.chunk` with a single index-0 choice. -/
def mkOaiChunk (id model : String) (now : Int) (delta : Option OaiMessage)
    (finishReason : Option String) : OaiResponse :=
  ⟨"chatcmpl-" ++ id, "chat.completion.chunk", now, model,
    [⟨0, none, delta, finishReason⟩], none⟩

/-- Loop state of `handleOAIStreaming`. -/
structure OaiStreamState where
  counters : StreamCounters
  msgID : String
  sentRole : Bool
  out : List StreamOut
deriving DecidableEq

/-- One loop iteration of `handleOAIStreaming`. -/
def oaiStreamStep (parseEvent : String → Option OaiStreamEvent) (model : String)
    (now : Int) (s : OaiStreamState) (line : String) : OaiStreamState :=
  if hasPrefixStr line "data: " then
    let data : String := ⟨line.data.drop 6⟩
    if data = "[DONE]" then s
    else
      match parseEvent data with
      | none => s
      | some e =>
        if e.type = "message_start" then
          let s1 : OaiStreamState :=
            { s with msgID := e.messageID,
                     counters := { s.counters with
                       inputTokens := e.messageUsage.inputTokens,
                       cacheRead := e.messageUsage.cacheReadInputTokens,
                       cacheWrite := e.messageUsage.cacheCreationInputTokens } }
          if s1.sentRole then s1
          else
            { s1 with sentRole := true,
                      out := s1.out ++ [.chunk (mkOaiChunk s1.msgID model now
                        (some ⟨"assistant", ""⟩) none)] }
        else if e.type = "content_block_delta" then
          if e.deltaType = "text_delta" && e.deltaText ≠ "" then
            { s with out := s.out ++ [.chunk (mkOaiChunk s.msgID model now
                (some ⟨"", e.deltaText⟩) none)] }
          else s
        else if e.type = "message_delta" then
          { s with counters := { s.counters with outputTokens := e.usageOutputTokens },
                   out := s.out ++ [.chunk (mkOaiChunk s.msgID model now none
                     (some (mapStopReason e.deltaStopReason)))] }
        else if e.type = "message_stop" then
          { s with out := s.out ++ [.done] }
        else s
  else s

/-- `handleOAIStreaming`: status 200 to the client, the translated chunk
stream, and exactly one `Record` call at end-of-stream. -/
def handleOAIStreaming (st : PricingStore) (model : String) (status : Nat)
    (lines : List String) (parseEvent : String → Option OaiStreamEvent)
    (now : Int) : Nat × List StreamOut × List Request :=
  let s := lines.foldl (oaiStreamStep parseEvent model now) ⟨⟨0, 0, 0, 0⟩, "", false, []⟩
  (200, s.out, [streamUsageRecord st model s.counters status])

/-- The headers `handleChatCompletions` sets on the upstream request, given
the client's `Authorization` value (`""` models an absent header, as returned
by `r.Header.Get`).  These are the only headers set: the upstream request is
created fresh and no client header is copied onto it. -/
def translatedUpstreamHeaders (auth : String) : List (String × String) :=
  (if hasPrefixStr auth "Bearer " then
    [("x-api-key", trimPrefixStr auth "Bearer ")]
  else [])
    ++ [("Content-Type", "application/json"), ("anthropic-version", "2023-06-01")]

/-- The client-visible outcome of the translated path after the upstream
response arrived: a direct (non-SSE) response or a translated chunk stream,
plus the `Record` calls made. -/
inductive TranslatedOutcome where
  | direct (status : Nat) (body : RespBody) (records : List Request)
  | streamed (status : Nat) (out : List StreamOut) (records : List Request)
deriving DecidableEq

/-- `handleChatCompletions` from the point the upstream response arrives:
status ≥ 400 mirrors status and body and records `upstream <code>`; otherwise
dispatch on `stream` + `Content-Type: text/event-stream` (`ctEventStream`
models the `strings.Contains` test). -/
def translatedDispatch (st : PricingStore) (model : String) (status : Nat)
    (streamReq ctEventStream : Bool) (bodyRead : Option String)
    (readErrMsg : String) (parse : String → Option AnthropicResponse)
    (lines : List String) (parseEvent : String → Option OaiStreamEvent)
    (now : Int) : TranslatedOutcome :=
  if 400 ≤ status then
    .direct status (.raw (bodyRead.getD ""))
      [recordErrorRequest model ("upstream " ++ toString status)]
  else if streamReq && ctEventStream then
    let r := handleOAIStreaming st model status lines parseEvent now
    .streamed r.1 r.2.1 r.2.2
  else
    let r := handleOAINonStreaming st model status bodyRead readErrMsg parse now
    .direct r.1 r.2.1 r.2.2

/-! ### Derived predicates and concrete stores used by the statements -/

/-- Ledger invariant: ids in insertion order are `1, 2, …, n`, and the next
id counter equals the number of stored records. -/
def trackerInv (st : TrackerState) : Prop :=
  st.requests.map (·.id) = List.range' 1 st.requests.length
    ∧ st.nextID = st.requests.length

/-- All four prices of an entry are non-negative (the spec's data-model
constraint on pricing entries). -/
def pricingNonneg (p : Pricing) : Prop :=
  0 ≤ p.inputPerMTok ∧ 0 ≤ p.outputPerMTok
    ∧ 0 ≤ p.cacheReadPerMTok ∧ 0 ≤ p.cacheWritePerMTok

/-- Every entry of the table and the fallback are non-negative. -/
def storeNonneg (st : PricingStore) : Prop :=
  (∀ e ∈ st.models, pricingNonneg e.2) ∧ pricingNonneg st.fallback

/-- All four usage counters of a decoded response are non-negative (the
spec's data-model constraint on token counters). -/
def usageNonneg (u : AntUsage) : Prop :=
  0 ≤ u.inputTokens ∧ 0 ≤ u.outputTokens
    ∧ 0 ≤ u.cacheCreationInputTokens ∧ 0 ≤ u.cacheReadInputTokens

/-- Non-negative captured stream counters. -/
def countersNonneg (c : StreamCounters) : Prop :=
  0 ≤ c.inputTokens ∧ 0 ≤ c.outputTokens ∧ 0 ≤ c.cacheRead ∧ 0 ≤ c.cacheWrite

/-- The cost field of a record equals `CalculateCost` applied to the record's
own model string and four token counters. -/
def costInvariant (st : PricingStore) (r : Request) : Prop :=
  r.cost = CalculateCost st r.model r.inputTokens r.outputTokens r.cacheRead r.cacheWrite

/-- A pricing store whose alias table holds one alias that is a proper prefix
of another, the shorter one first in iteration order; both are prefixes of
the model string `"model-abc"`. -/
def prefixAmbiguousStore : PricingStore where
  models := [("canon-short", ⟨1, 1, 1, 1⟩), ("canon-long", ⟨2, 2, 2, 2⟩)]
  aliases := [("model-a", "canon-short"), ("model-ab", "canon-long")]
  fallback := ⟨0, 0, 0, 0⟩

/-! ### Helper lemmas -/

theorem hasPrefixStr_append (p rest : String) : hasPrefixStr (p ++ rest) p = true := by
  show p.data.isPrefixOf (p ++ rest).data = true
  have hdata : (p ++ rest).data = p.data ++ rest.data := rfl
  rw [hdata, List.isPrefixOf_iff_prefix]
  exact List.prefix_append _ _

theorem trimPrefixStr_append (p rest : String) : trimPrefixStr (p ++ rest) p = rest := by
  have hdata : (p ++ rest).data = p.data ++ rest.data := rfl
  have hpre : p.data.isPrefixOf (p ++ rest).data = true := hasPrefixStr_append p rest
  unfold trimPrefixStr
  rw [if_pos hpre, hdata, List.drop_left]

/-- C9: on the translated path, a client `Authorization` value of the form
`Bearer <rest>` yields upstream header `x-api-key` with value `<rest>`, the
`Bearer ` prefix stripped exactly once; in particular `Bearer Bearer X`
yields `x-api-key: Bearer X`. -/
theorem c9_bearer_stripped_once :
    (∀ rest : String,
      translatedUpstreamHeaders ("Bearer " ++ rest)
        = [("x-api-key", rest), ("Content-Type", "application/json"),
           ("anthropic-version", "2023-06-01")])
    ∧ translatedUpstreamHeaders "Bearer Bearer X"
        = [("x-api-key", "Bearer X"), ("Content-Type", "application/json"),
           ("anthropic-version", "2023-06-01")] := by
  have h : ∀ rest : String,
      translatedUpstreamHeaders ("Bearer " ++ rest)
        = [("x-api-key", rest), ("Content-Type", "application/json"),
           ("anthropic-version", "2023-06-01")] := by
    intro rest
    unfold translatedUpstreamHeaders
    rw [hasPrefixStr_append, trimPrefixStr_append]
    rfl
  exact ⟨h, h "Bearer X"⟩

/-- C10: on the translated path, when the client's `Authorization` value does
not begin with `Bearer ` (including an absent header, which `Header.Get`
reports as `""`), the upstream request carries no `x-api-key` header and no
`Authorization` header; the only headers set are `Content-Type` and
`anthropic-version`. -/
theorem c10_no_auth_forwarding (auth : Option String)
    (h : hasPrefixStr (auth.getD "") "Bearer " = false) :
    translatedUpstreamHeaders (auth.getD "")
      = [("Content-Type", "application/json"), ("anthropic-version", "2023-06-01")]
    ∧ (∀ v, ("x-api-key", v) ∉ translatedUpstreamHeaders (auth.getD ""))
    ∧ (∀ v, ("Authorization", v) ∉ translatedUpstreamHeaders (auth.getD "")) := by
  have heq : translatedUpstreamHeaders (auth.getD "")
      = [("Content-Type", "application/json"), ("anthropic-version", "2023-06-01")] := by
    unfold translatedUpstreamHeaders
    rw [h]
    rfl
  refine ⟨heq, ?_, ?_⟩ <;>
    · intro v hv
      rw [heq] at hv
      simp at hv

/-- Witness for C10 at the concrete input `auth = none` (absent header). -/
theorem c10_no_auth_forwarding_witness :
    hasPrefixStr ((none : Option String).getD "") "Bearer " = false
    ∧ translatedUpstreamHeaders ((none : Option String).getD "")
        = [("Content-Type", "application/json"), ("anthropic-version", "2023-06-01")] :=
  ⟨by decide, (c10_no_auth_forwarding none (by decide)).1⟩

theorem trackerStep_inv (st : TrackerState) (op : TrackerOp)
    (h : trackerInv st) : trackerInv (trackerStep st op) := by
  obtain ⟨h1, h2⟩ := h
  cases op with
  | clear => exact ⟨rfl, rfl⟩
  | record r =>
    have hlen : (trackerStep st (.record r)).requests.length = st.requests.length + 1 := by
      simp [trackerStep]
    have hmap : (trackerStep st (.record r)).requests.map (·.id)
        = st.requests.map (·.id) ++ [st.nextID + 1] := by
      simp [trackerStep]
    constructor
    · rw [hmap, h1, hlen, h2]
      have hc : List.range' 1 (st.requests.length + 1)
          = List.range' 1 st.requests.length ++ [1 + st.requests.length] := by
        simpa using @List.range'_concat 1 1 st.requests.length
      rw [hc]
      simp [Nat.add_comm]
    · show st.nextID + 1 = (trackerStep st (.record r)).requests.length
      rw [hlen, h2]

theorem runTracker_inv (ops : List TrackerOp) : trackerInv (runTracker ops) := by
  have h : ∀ (l : List TrackerOp) (st : TrackerState),
      trackerInv st → trackerInv (l.foldl trackerStep st) := by
    intro l
    induction l with
    | nil => intro st h; exact h
    | cons op rest ih => intro st h; exact ih _ (trackerStep_inv st op h)
  exact h ops ⟨[], 0⟩ ⟨rfl, rfl⟩

/-- C5: for any sequence of `Record` and `Clear` calls, the stored record ids
in insertion order are exactly `1, 2, …, n`; and a `Record` performed
immediately after a `Clear` is assigned id 1. -/
theorem c5_ledger_ids :
    (∀ ops : List TrackerOp,
      (runTracker ops).requests.map (·.id)
        = List.range' 1 (runTracker ops).requests.length)
    ∧ ∀ (ops : List TrackerOp) (r : Request),
      (runTracker (ops ++ [TrackerOp.clear, TrackerOp.record r])).requests.map (·.id)
        = [1] := by
  constructor
  · intro ops
    exact (runTracker_inv ops).1
  · intro ops r
    unfold runTracker
    rw [List.foldl_append]
    rfl


theorem lookupExact_mem {α : Type} {l : List (String × α)} {k : String} {v : α}
    (h : lookupExact l k = some v) : v ∈ l.map Prod.snd := by
  unfold lookupExact at h
  cases hf : l.find? (fun p => p.1 == k) with
  | none => rw [hf] at h; simp at h
  | some pr =>
    rw [hf] at h
    simp only [Option.map_some', Option.some.injEq] at h
    exact h ▸ List.mem_map_of_mem _ (List.mem_of_find?_eq_some hf)

theorem getPricing_mem_or_fallback (st : PricingStore) (model : String) :
    GetPricing st model ∈ st.models.map Prod.snd
      ∨ GetPricing st model = st.fallback := by
  unfold GetPricing
  cases hm : lookupExact st.models model with
  | some p => exact Or.inl (lookupExact_mem hm)
  | none =>
    cases ha : aliasExactStep st model with
    | some p =>
      left
      obtain ⟨full, _, hlook⟩ := Option.bind_eq_some.mp ha
      exact lookupExact_mem hlook
    | none =>
      cases hs : aliasScanStep st model with
      | some p =>
        left
        obtain ⟨pr, _, hlook⟩ := Option.bind_eq_some.mp hs
        exact lookupExact_mem hlook
      | none => exact Or.inr rfl

/-- C6: pricing lookup is total — for any pricing state and any model string
it returns an entry of the canonical table or, in the worst case, the
fallback entry; it never fails. -/
theorem c6_lookup_total (st : PricingStore) (model : String) :
    GetPricing st model ∈ st.models.map Prod.snd
      ∨ GetPricing st model = st.fallback :=
  getPricing_mem_or_fallback st model

/-- C3 (amended): pricing lookup resolves in order — exact canonical match,
else exact alias match resolved through the canonical table, else the alias
whose string is a prefix of the model — stopping at the first hit and falling
back otherwise.  When several aliases are prefixes of the model string the
scan returns the first matching alias in table iteration order, which need
not be the longest one. -/
theorem c3_resolution_order (st : PricingStore) (model : String) :
    (∀ p, lookupExact st.models model = some p → GetPricing st model = p)
    ∧ (lookupExact st.models model = none →
        ∀ p, aliasExactStep st model = some p → GetPricing st model = p)
    ∧ (lookupExact st.models model = none → aliasExactStep st model = none →
        ∀ p, aliasScanStep st model = some p → GetPricing st model = p)
    ∧ (lookupExact st.models model = none → aliasExactStep st model = none →
        aliasScanStep st model = none → GetPricing st model = st.fallback) := by
  refine ⟨?_, ?_, ?_, ?_⟩
  · intro p h
    unfold GetPricing
    rw [h]
  · intro h0 p h
    unfold GetPricing
    rw [h0, h]
  · intro h0 h1 p h
    unfold GetPricing
    rw [h0, h1, h]
  · intro h0 h1 h2
    unfold GetPricing
    rw [h0, h1, h2]

/-- Witness for C3 on `prefixAmbiguousStore`: an exact alias hit resolves to
its canonical entry, and a string matching nothing resolves to the
fallback. -/
theorem c3_resolution_order_witness :
    GetPricing prefixAmbiguousStore "model-a" = ⟨1, 1, 1, 1⟩
    ∧ GetPricing prefixAmbiguousStore "zzz" = prefixAmbiguousStore.fallback :=
  ⟨(c3_resolution_order prefixAmbiguousStore "model-a").2.1 (by decide)
      ⟨1, 1, 1, 1⟩ (by decide),
    (c3_resolution_order prefixAmbiguousStore "zzz").2.2.2 (by decide) (by decide)
      (by decide)⟩

/-- Counterexample to C3 as stated: in `prefixAmbiguousStore` the alias
`model-a` is a proper prefix of the alias `model-ab` and both are prefixes of
the model string `model-abc`, yet lookup resolves to the *shorter* alias's
canonical entry `⟨1,1,1,1⟩`, not the longer alias's `⟨2,2,2,2⟩`: the scan
takes the first alias in table iteration order. -/
theorem c3_longest_alias_counterexample :
    hasPrefixStr "model-abc" "model-a" = true
    ∧ hasPrefixStr "model-abc" "model-ab" = true
    ∧ lookupExact prefixAmbiguousStore.aliases "model-a" = some "canon-short"
    ∧ lookupExact prefixAmbiguousStore.aliases "model-ab" = some "canon-long"
    ∧ GetPricing prefixAmbiguousStore "model-abc" = ⟨1, 1, 1, 1⟩
    ∧ GetPricing prefixAmbiguousStore "model-abc" ≠ ⟨2, 2, 2, 2⟩
    ∧ lookupExact prefixAmbiguousStore.models "canon-long" = some ⟨2, 2, 2, 2⟩ := by
  decide

theorem getPricing_nonneg {st : PricingStore} (h : storeNonneg st)
    (model : String) : pricingNonneg (GetPricing st model) := by
  rcases getPricing_mem_or_fallback st model with hm | hf
  · rcases List.mem_map.mp hm with ⟨e, he, heq⟩
    exact heq ▸ h.1 e he
  · rw [hf]
    exact h.2

theorem calculateCost_nonneg {st : PricingStore} (h : storeNonneg st)
    (model : String) {i o cr cw : Int} (hi : 0 ≤ i) (ho : 0 ≤ o)
    (hcr : 0 ≤ cr) (hcw : 0 ≤ cw) :
    0 ≤ CalculateCost st model i o cr cw := by
  obtain ⟨h1, h2, h3, h4⟩ := getPricing_nonneg h model
  have hi' : (0 : ℚ) ≤ (i : ℚ) := by exact_mod_cast hi
  have ho' : (0 : ℚ) ≤ (o : ℚ) := by exact_mod_cast ho
  have hcr' : (0 : ℚ) ≤ (cr : ℚ) := by exact_mod_cast hcr
  have hcw' : (0 : ℚ) ≤ (cw : ℚ) := by exact_mod_cast hcw
  unfold CalculateCost
  have hm : (0 : ℚ) ≤ 1000000 := by norm_num
  exact add_nonneg
    (add_nonneg
      (add_nonneg (div_nonneg (mul_nonneg hi' h1) hm)
        (div_nonneg (mul_nonneg ho' h2) hm))
      (div_nonneg (mul_nonneg hcr' h3) hm))
    (div_nonneg (mul_nonneg hcw' h4) hm)

/-- C4: every record a handler passes to `Record` has its cost field equal to
`CalculateCost` applied to the record's own model string and four token
counters (at the pricing state in effect when it was built), and — when the
pricing table and the decoded usage counters are non-negative, as the data
model requires — the cost is non-negative.  The four record shapes cover the
translated non-streaming handler, the native non-streaming handler, both
streaming handlers, and the terminal-error path. -/
theorem c4_cost_invariant (st : PricingStore) (model errMsg : String)
    (ant : AnthropicResponse) (u : AntUsage) (c : StreamCounters) (status : Nat) :
    (costInvariant st (oaiUsageRecord st model ant status)
      ∧ costInvariant st (nativeUsageRecord st model u status)
      ∧ costInvariant st (streamUsageRecord st model c status)
      ∧ costInvariant st (recordErrorRequest model errMsg))
    ∧ (storeNonneg st →
        (usageNonneg ant.usage → 0 ≤ (oaiUsageRecord st model ant status).cost)
        ∧ (usageNonneg u → 0 ≤ (nativeUsageRecord st model u status).cost)
        ∧ (countersNonneg c → 0 ≤ (streamUsageRecord st model c status).cost)
        ∧ 0 ≤ (recordErrorRequest model errMsg).cost) := by
  constructor
  · refine ⟨rfl, rfl, rfl, ?_⟩
    show (0 : ℚ) = CalculateCost st model 0 0 0 0
    simp [CalculateCost]
  · intro hst
    refine ⟨?_, ?_, ?_, le_refl 0⟩
    · intro ⟨hi, ho, hcw, hcr⟩
      exact calculateCost_nonneg hst model hi ho hcr hcw
    · intro ⟨hi, ho, hcw, hcr⟩
      exact calculateCost_nonneg hst model hi ho hcr hcw
    · intro ⟨hi, ho, hcr, hcw⟩
      exact calculateCost_nonneg hst model hi ho hcr hcw

/-- Witness for C4 at concrete inputs (non-negative store and usage). -/
theorem c4_cost_invariant_witness :
    storeNonneg prefixAmbiguousStore
    ∧ usageNonneg ⟨10, 2, 0, 0⟩
    ∧ 0 ≤ (oaiUsageRecord prefixAmbiguousStore "model-a"
        ⟨"msg_1", "message", "assistant", "canon-short", [⟨"text", "hello"⟩],
          "end_turn", ⟨10, 2, 0, 0⟩⟩ 200).cost :=
  ⟨by unfold storeNonneg pricingNonneg; decide,
    by unfold usageNonneg; decide,
    ((c4_cost_invariant prefixAmbiguousStore "model-a" ""
        ⟨"msg_1", "message", "assistant", "canon-short", [⟨"text", "hello"⟩],
          "end_turn", ⟨10, 2, 0, 0⟩⟩ ⟨0, 0, 0, 0⟩ ⟨0, 0, 0, 0⟩ 200).2
      (by unfold storeNonneg pricingNonneg; decide)).1
      (by unfold usageNonneg; decide)⟩

/-- C1 (amended): on the translated path, an upstream response with status
≥ 400 received before streaming starts is mirrored to the client — same
status, body verbatim — and exactly one ledger entry is recorded whose error
string is `upstream <code>`, whose four token counters and cost are zero, and
whose status-code field is 0 (the Go zero value: `recordError` does not copy
the upstream status into the record). -/
theorem c1_upstream_error_mirror (st : PricingStore) (model : String)
    (status : Nat) (streamReq ctEventStream : Bool) (body readErrMsg : String)
    (parse : String → Option AnthropicResponse) (lines : List String)
    (parseEvent : String → Option OaiStreamEvent) (now : Int)
    (h : 400 ≤ status) :
    translatedDispatch st model status streamReq ctEventStream (some body)
        readErrMsg parse lines parseEvent now
      = .direct status (.raw body)
          [recordErrorRequest model ("upstream " ++ toString status)]
    ∧ (recordErrorRequest model ("upstream " ++ toString status)).inputTokens = 0
    ∧ (recordErrorRequest model ("upstream " ++ toString status)).outputTokens = 0
    ∧ (recordErrorRequest model ("upstream " ++ toString status)).cacheRead = 0
    ∧ (recordErrorRequest model ("upstream " ++ toString status)).cacheWrite = 0
    ∧ (recordErrorRequest model ("upstream " ++ toString status)).cost = 0
    ∧ (recordErrorRequest model ("upstream " ++ toString status)).error
        = "upstream " ++ toString status
    ∧ (recordErrorRequest model ("upstream " ++ toString status)).statusCode = 0 := by
  refine ⟨?_, rfl, rfl, rfl, rfl, rfl, rfl, rfl⟩
  unfold translatedDispatch
  rw [if_pos h]
  rfl

/-- Witness for C1 at status 429. -/
theorem c1_upstream_error_mirror_witness :
    400 ≤ 429
    ∧ translatedDispatch defaultPricingStore "claude-sonnet-4" 429 false false
          (some "rate limited") "" (fun _ => none) [] (fun _ => none) 0
        = .direct 429 (.raw "rate limited")
            [recordErrorRequest "claude-sonnet-4" ("upstream " ++ toString 429)] :=
  ⟨by decide,
    (c1_upstream_error_mirror defaultPricingStore "claude-sonnet-4" 429 false false
      "rate limited" "" (fun _ => none) [] (fun _ => none) 0 (by decide)).1⟩

/-- Counterexample to C1 as stated: for a 429 upstream response the recorded
entry's status-code field is 0, not 429 — `recordError` leaves `StatusCode`
at the Go zero value. -/
theorem c1_status_code_counterexample :
    translatedDispatch prefixAmbiguousStore "claude-sonnet-4" 429 false false
        (some "rate limited") "" (fun _ => none) [] (fun _ => none) 0
      = .direct 429 (.raw "rate limited")
          [recordErrorRequest "claude-sonnet-4" "upstream 429"]
    ∧ (recordErrorRequest "claude-sonnet-4" "upstream 429").error = "upstream 429"
    ∧ (recordErrorRequest "claude-sonnet-4" "upstream 429").statusCode = 0
    ∧ (recordErrorRequest "claude-sonnet-4" "upstream 429").statusCode ≠ 429 := by
  decide

/-- C2 (amended): each handled exchange makes exactly one `Record` call —
upstream read failure records once; both streaming handlers record exactly
once at end-of-stream; a non-streaming exchange records once when the
upstream body decodes, but when the body fails to decode as JSON the body is
still forwarded to the client while *no* record is made (both the translated
and the native non-streaming handlers skip the `Record` call in that case). -/
theorem c2_record_count (st : PricingStore) (model errMsg : String)
    (status : Nat) (body : String) (parse : String → Option AnthropicResponse)
    (parseUsage : String → Option AntUsage) (lines : List String)
    (pe : String → Option NativeStreamEvent)
    (pe2 : String → Option OaiStreamEvent) (now : Int) :
    (handleOAINonStreaming st model status none errMsg parse now).2.2.length = 1
    ∧ (handleOAINonStreaming st model status (some body) errMsg parse now).2.2.length
        = (if (parse body).isSome then 1 else 0)
    ∧ ((parse body).isSome = false →
        (handleOAINonStreaming st model status (some body) errMsg parse now).2.1
          = .raw body)
    ∧ (handleNonStreaming st model status none errMsg parseUsage).2.2.length = 1
    ∧ (handleNonStreaming st model status (some body) errMsg parseUsage).2.2.length
        = (if (parseUsage body).isSome then 1 else 0)
    ∧ ((parseUsage body).isSome = false →
        (handleNonStreaming st model status (some body) errMsg parseUsage).2.1
          = .raw body)
    ∧ (handleStreaming st model status lines pe).2.2.length = 1
    ∧ (handleOAIStreaming st model status lines pe2 now).2.2.length = 1 := by
  refine ⟨rfl, ?_, ?_, rfl, ?_, ?_, rfl, rfl⟩
  · cases h : parse body <;> simp [handleOAINonStreaming, h]
  · intro h
    cases hp : parse body with
    | none => simp [handleOAINonStreaming, hp]
    | some v => rw [hp] at h; simp at h
  · cases h : parseUsage body <;> simp [handleNonStreaming, h]
  · intro h
    cases hp : parseUsage body with
    | none => simp [handleNonStreaming, hp]
    | some v => rw [hp] at h; simp at h

/-- Witness for C2 at concrete inputs: a decodable body records once, an
undecodable body records zero times. -/
theorem c2_record_count_witness :
    ((Option.isSome ((fun _ : String => (none : Option AntUsage)) "not json")) = false →
      (handleNonStreaming prefixAmbiguousStore "claude-sonnet-4" 200
          (some "not json") "" (fun _ => none)).2.1 = .raw "not json")
    ∧ (handleNonStreaming prefixAmbiguousStore "claude-sonnet-4" 200
        (some "not json") "" (fun _ => none)).2.1 = .raw "not json" :=
  have h := c2_record_count prefixAmbiguousStore "claude-sonnet-4" "" 200 "not json"
    (fun _ => none) (fun _ => none) [] (fun _ => none) (fun _ => none) 0
  ⟨h.2.2.2.2.2.1, h.2.2.2.2.2.1 (by decide)⟩

/-- Counterexample to C2 as stated: an exchange whose upstream body is
forwarded to the client can make *zero* `Record` calls.  The decode oracle
`fun _ => none` models `json.Unmarshal` failing on the body `"not json"`: the
translated non-streaming handler forwards the body verbatim with the upstream
status and its list of `Record` calls is empty. -/
theorem c2_unparsed_body_counterexample :
    handleOAINonStreaming prefixAmbiguousStore "claude-sonnet-4" 200
        (some "not json") "" (fun _ => none) 0
      = (200, .raw "not json", ([] : List Request))
    ∧ ([] : List Request).length ≠ 1 := by
  decide

theorem joinFoldlShift (l : List String) :
    ∀ a : String, List.foldl (fun r s => r ++ s) a l = a ++ String.join l := by
  induction l with
  | nil =>
    intro a
    simp [String.join]
  | cons x xs ih =>
    intro a
    rw [List.foldl_cons, ih (a ++ x)]
    have hx : String.join (x :: xs) = List.foldl (fun r s => r ++ s) ("" ++ x) xs := rfl
    rw [hx, ih ("" ++ x)]
    simp [String.append_assoc]

theorem textConcat_eq_join (l : List ContentBlock) :
    textConcat l
      = String.join ((l.filter (fun c => c.type = "text")).map (·.text)) := by
  have haux : ∀ (l : List ContentBlock) (a : String),
      l.foldl (fun acc c => if c.type = "text" then acc ++ c.text else acc) a
        = a ++ String.join ((l.filter (fun c => c.type = "text")).map (·.text)) := by
    intro l
    induction l with
    | nil =>
      intro a
      simp [String.join]
    | cons c rest ih =>
      intro a
      by_cases h : c.type = "text"
      · rw [List.foldl_cons, if_pos h, ih (a ++ c.text)]
        have hf : (c :: rest).filter (fun c => c.type = "text")
            = c :: rest.filter (fun c => c.type = "text") := by
          simp [List.filter_cons, h]
        rw [hf, List.map_cons]
        have hj : String.join (c.text :: (rest.filter
              (fun c => c.type = "text")).map (·.text))
            = List.foldl (fun r s => r ++ s) ("" ++ c.text)
                ((rest.filter (fun c => c.type = "text")).map (·.text)) := rfl
        rw [hj, joinFoldlShift]
        simp [String.append_assoc]
      · rw [List.foldl_cons, if_neg h, ih a]
        have hf : (c :: rest).filter (fun c => c.type = "text")
            = rest.filter (fun c => c.type = "text") := by
          simp [List.filter_cons, h]
        rw [hf]
  have := haux l ""
  unfold textConcat
  rw [this]
  simp

/-- C8: for every native response, `convertResponse` reports
`prompt_tokens = input_tokens`, `completion_tokens = output_tokens`,
`total_tokens` their sum, and a single assistant choice whose content is the
concatenation, in order, of the text of the content blocks whose type is
`"text"`. -/
theorem c8_convert_response_round_trip (ant : AnthropicResponse) (now : Int) :
    (convertResponse ant now).usage
      = some ⟨ant.usage.inputTokens, ant.usage.outputTokens,
          ant.usage.inputTokens + ant.usage.outputTokens⟩
    ∧ (convertResponse ant now).choices
      = [⟨0, some ⟨"assistant",
            String.join (((ant.content.filter (fun c => c.type = "text"))).map (·.text))⟩,
          none, some (mapStopReason ant.stopReason)⟩] := by
  refine ⟨rfl, ?_⟩
  show [(⟨0, some ⟨"assistant", textConcat ant.content⟩, none,
      some (mapStopReason ant.stopReason)⟩ : OaiChoice)] = _
  rw [textConcat_eq_join]

theorem updateStats_measure {M : Type} [AddCommMonoid M]
    (μ : ModelStats → M) (ν : Request → M)
    (hadd : ∀ s r, μ (addReq s r) = μ s + ν r)
    (hempty : ∀ m, μ (emptyStats m) = 0) (r : Request) :
    ∀ l : List (String × ModelStats),
      ((updateStats r l).map (fun p => μ p.2)).sum
        = (l.map (fun p => μ p.2)).sum + ν r := by
  intro l
  induction l with
  | nil =>
    simp [updateStats, hadd, hempty]
  | cons hd tl ih =>
    obtain ⟨k, s⟩ := hd
    by_cases h : k = r.model
    · simp only [updateStats, if_pos h, List.map_cons, List.sum_cons, hadd]
      rw [add_right_comm]
    · simp only [updateStats, if_neg h, List.map_cons, List.sum_cons, ih]
      rw [add_assoc]

theorem byModel_measure {M : Type} [AddCommMonoid M]
    (μ : ModelStats → M) (ν : Request → M)
    (hadd : ∀ s r, μ (addReq s r) = μ s + ν r)
    (hempty : ∀ m, μ (emptyStats m) = 0) :
    ∀ (reqs : List Request) (acc : List (String × ModelStats)),
      ((reqs.foldl (fun a r => updateStats r a) acc).map (fun p => μ p.2)).sum
        = (acc.map (fun p => μ p.2)).sum + (reqs.map ν).sum := by
  intro reqs
  induction reqs with
  | nil =>
    intro acc
    simp
  | cons r rest ih =>
    intro acc
    rw [List.foldl_cons, ih, updateStats_measure μ ν hadd hempty r acc]
    simp [add_assoc]

theorem getModelStats_measure {M : Type} [AddCommMonoid M]
    (μ : ModelStats → M) (ν : Request → M)
    (hadd : ∀ s r, μ (addReq s r) = μ s + ν r)
    (hempty : ∀ m, μ (emptyStats m) = 0) (reqs : List Request) :
    ((GetModelStats reqs).map μ).sum = (reqs.map ν).sum := by
  unfold GetModelStats
  have hperm := List.mergeSort_perm ((byModel reqs).map Prod.snd)
    (fun a b => decide (b.totalCost ≤ a.totalCost))
  rw [(hperm.map μ).sum_eq, List.map_map]
  have := byModel_measure μ ν hadd hempty reqs []
  unfold byModel
  simpa using this

theorem summary_foldl (reqs : List Request) :
    ∀ init : Summary,
      reqs.foldl summaryStep init
        = ⟨init.totalCost + (reqs.map (·.cost)).sum,
           init.totalRequests,
           init.totalInput + (reqs.map (·.inputTokens)).sum,
           init.totalOutput + (reqs.map (·.outputTokens)).sum,
           init.totalCacheR + (reqs.map (·.cacheRead)).sum,
           init.totalCacheW + (reqs.map (·.cacheWrite)).sum⟩ := by
  induction reqs with
  | nil =>
    intro init
    simp
  | cons r rest ih =>
    intro init
    rw [List.foldl_cons, ih]
    simp [summaryStep, add_assoc]

/-- C7: the summary aggregate equals the per-model aggregates summed over all
models — for total cost, each of the four token counters, and the request
count. -/
theorem c7_summary_aggregation (reqs : List Request) :
    (GetSummary reqs).totalCost = ((GetModelStats reqs).map (·.totalCost)).sum
    ∧ (GetSummary reqs).totalInput
        = ((GetModelStats reqs).map (·.inputTokens)).sum
    ∧ (GetSummary reqs).totalOutput
        = ((GetModelStats reqs).map (·.outputTokens)).sum
    ∧ (GetSummary reqs).totalCacheR
        = ((GetModelStats reqs).map (·.cacheRead)).sum
    ∧ (GetSummary reqs).totalCacheW
        = ((GetModelStats reqs).map (·.cacheWrite)).sum
    ∧ (GetSummary reqs).totalRequests
        = ((GetModelStats reqs).map (·.requests)).sum := by
  have hsum := summary_foldl reqs ⟨0, reqs.length, 0, 0, 0, 0⟩
  refine ⟨?_, ?_, ?_, ?_, ?_, ?_⟩
  · rw [getModelStats_measure (·.totalCost) (·.cost) (fun _ _ => rfl) (fun _ => rfl)]
    unfold GetSummary
    rw [hsum]
    simp
  · rw [getModelStats_measure (·.inputTokens) (·.inputTokens)
      (fun _ _ => rfl) (fun _ => rfl)]
    unfold GetSummary
    rw [hsum]
    simp
  · rw [getModelStats_measure (·.outputTokens) (·.outputTokens)
      (fun _ _ => rfl) (fun _ => rfl)]
    unfold GetSummary
    rw [hsum]
    simp
  · rw [getModelStats_measure (·.cacheRead) (·.cacheRead)
      (fun _ _ => rfl) (fun _ => rfl)]
    unfold GetSummary
    rw [hsum]
    simp
  · rw [getModelStats_measure (·.cacheWrite) (·.cacheWrite)
      (fun _ _ => rfl) (fun _ => rfl)]
    unfold GetSummary
    rw [hsum]
    simp
  · rw [getModelStats_measure (·.requests) (fun _ => (1 : ℕ))
      (fun _ _ => rfl) (fun _ => rfl)]
    unfold GetSummary
    rw [hsum]
    simp [List.map_const']
